import Mathlib

/-!
# mini_kv — verification of the framing codec, duplex stream and service layer

Shallow embedding of the mini_kv repository (a networked key–value store
with pub/sub).  Byte buffers (`BytesMut`, `Vec<u8>`) are embedded as
`List Nat`; machine integers as `Nat` with explicit `% 2^32` where the code
casts to `u32`; fallible code returns `Except KvError`; `&mut` buffers are
passed and returned explicitly.

The repository delegates message serialization to the external `prost`
crate and compression to the external `flate2` (gzip) crate.  Both are
embedded as parameters (`MsgCodec`, `GzipModel`) carrying the inverse
properties those libraries provide; the repository's own code
(`frame.rs`, `stream.rs`, `network/mod.rs`, `service/topic_service.rs`) is
translated definition by definition.
-/

set_option maxRecDepth 40000

namespace MiniKV

/-! ## Errors (`error.rs`) -/

/-- Modelled from the spec: `error.rs` is not under `src/`; §7 lists the
error kinds `NotFound`, `InvalidCommand`, `ConvertError`, `StorageError`,
`FrameError`, …, `Internal`.  Only the constructors the verified code can
produce carry data. -/
inductive KvError where
  | NotFound (msg : String)
  | InvalidCommand (msg : String)
  | ConvertError
  | StorageError
  | FrameError
  | TlsError
  | YamuxError
  | IoError
  | EncodeError
  | DecodeError
  | Internal (msg : String)
deriving DecidableEq

/-! ## Framing constants (`src/network/frame.rs` lines 9–19) -/

/-- `pub const LEN_LEN: usize = 4` — the header occupies 4 bytes. -/
def LEN_LEN : Nat := 4

/-- `const MAX_FRAME: usize = 2 * 1024 * 1024 * 1024` (= `2^31`). -/
def MAX_FRAME : Nat := 2 * 1024 * 1024 * 1024

/-- `const COMPRESSION_LIMIT: usize = 1436` — payloads above this are gzipped. -/
def COMPRESSION_LIMIT : Nat := 1436

/-- `const COMPRESSION_BIT: usize = 1 << 31` — high bit of the 4-byte header. -/
def COMPRESSION_BIT : Nat := 2 ^ 31

/-- `BufMut::put_u32` — append one `u32` as 4 big-endian bytes.  The
`% 2^32` models the `as u32` truncation performed at both call sites
(`size as _`, `(payload.len() | COMPRESSION_BIT) as _`). -/
def putU32 (n : Nat) : List Nat :=
  [n % 2 ^ 32 / 2 ^ 24 % 256, n % 2 ^ 32 / 2 ^ 16 % 256,
   n % 2 ^ 32 / 2 ^ 8 % 256, n % 2 ^ 32 % 256]

/-- `fn decode_header(header: usize) -> (usize, bool)` (frame.rs 93–97):
`len = header & !COMPRESSION_BIT`, `compressed = header & COMPRESSION_BIT
== COMPRESSION_BIT`.  Every caller obtains `header` from a `u32`
(`get_u32` / `read_u32`), so `header < 2^32` and clearing bit 31 is
`header % 2^31`; the flag is bit 31 of `header`. -/
def decode_header (header : Nat) : Nat × Bool :=
  (header % 2 ^ 31, decide (header / 2 ^ 31 % 2 = 1))

/-! ## External collaborators: gzip (`flate2`) and the message codec (`prost`) -/

/-- Model of the external `flate2` gzip codec used by `encode_frame` /
`decode_frame`: a compressor, a decompressor, and the library's guarantee
that decompressing a compressed stream restores the input.  The repository
never relies on any other property of gzip. -/
structure GzipModel where
  comp : List Nat → List Nat
  decomp : List Nat → List Nat
  decomp_comp : ∀ bs, decomp (comp bs) = bs

/-- Model of the external `prost::Message` codec for a message type `M`
(`CommandRequest` / `CommandResponse`): `enc` is `Message::encode` (whose
output length is `Message::encoded_len`), `dec` is `Message::decode`, and
`dec_enc` is prost's guarantee that decoding an encoded message restores
it (spec §4.1: the payload is "the canonical encoding"). -/
structure MsgCodec (M : Type) where
  enc : M → List Nat
  dec : List Nat → Option M
  dec_enc : ∀ m, dec (enc m) = some m

/-! ## `FrameCoder::encode_frame` (frame.rs 26–65)

The Rust takes `buf: &mut BytesMut`; the model takes the buffer and
returns the result together with the final buffer contents.  Tracing the
compressed branch: after `buf.put_u32(size)` the buffer is
`buf ++ putU32 size`; `let payload = buf.split_off(LEN_LEN)` splits at
absolute index 4 of that whole buffer, so `payload` is everything from
index 4 on; `buf.clear()` empties what is left; the `GzEncoder` built over
`payload.writer()` appends the compressed bytes to `payload`; finally the
new header is written into the (cleared) `buf` and `buf.unsplit(payload)`
concatenates the two. -/

def encode_frame {M : Type} (g : GzipModel) (c : MsgCodec M) (m : M)
    (buf : List Nat) : Except KvError Unit × List Nat :=
  let size := (c.enc m).length
  if MAX_FRAME ≤ size then
    (.error .FrameError, buf)
  else
    let buf2 := buf ++ putU32 size
    if COMPRESSION_LIMIT < size then
      let buf1 := c.enc m
      let payload := buf2.drop LEN_LEN
      let payload2 := payload ++ g.comp buf1
      (.ok (), putU32 (payload2.length ||| COMPRESSION_BIT) ++ payload2)
    else
      (.ok (), buf2 ++ c.enc m)

/-- `FrameCoder::decode_frame` (frame.rs 68–86).  `buf.get_u32()` consumes
the first 4 bytes (it panics when fewer are present — mapped to an error
the verified claims never reach, as is the slice panic when the buffer
holds fewer than `len` payload bytes).  The success value carries the
decoded message together with the buffer contents left after
`buf.advance(len)`. -/
def decode_frame {M : Type} (g : GzipModel) (c : MsgCodec M)
    (buf : List Nat) : Except KvError (M × List Nat) :=
  match buf with
  | b0 :: b1 :: b2 :: b3 :: rest =>
    let header := b0 * 2 ^ 24 + b1 * 2 ^ 16 + b2 * 2 ^ 8 + b3
    let len := (decode_header header).1
    let compressed := (decode_header header).2
    if len ≤ rest.length then
      let bytes := if compressed then g.decomp (rest.take len) else rest.take len
      match c.dec bytes with
      | some m => .ok (m, rest.drop len)
      | none => .error .DecodeError
    else .error .FrameError
  | _ => .error .FrameError

/-- The 4-byte big-endian header value at the front of a buffer (the value
`buf.get_u32()` would return); a specification helper for stating claims
about the header of an encoded frame. -/
def frameHeader (bs : List Nat) : Nat :=
  match bs with
  | b0 :: b1 :: b2 :: b3 :: _ => b0 * 2 ^ 24 + b1 * 2 ^ 16 + b2 * 2 ^ 8 + b3
  | _ => 0

/-- The frame `encode_frame` produces for `m` in an empty buffer. -/
def frameBytes {M : Type} (g : GzipModel) (c : MsgCodec M) (m : M) : List Nat :=
  (encode_frame g c m []).2

/-! ## Arithmetic helpers -/

/-- Reconstructing a `u32` from its 4 big-endian bytes. -/
theorem putU32_arith (n : Nat) (h : n < 2 ^ 32) :
    n % 2 ^ 32 / 2 ^ 24 % 256 * 2 ^ 24 + n % 2 ^ 32 / 2 ^ 16 % 256 * 2 ^ 16 +
      n % 2 ^ 32 / 2 ^ 8 % 256 * 2 ^ 8 + n % 2 ^ 32 % 256 = n := by
  omega

/-- The header value at the front of `putU32 n ++ r` is `n` (for `n < 2^32`). -/
theorem frameHeader_putU32 (n : Nat) (h : n < 2 ^ 32) (r : List Nat) :
    frameHeader (putU32 n ++ r) = n := by
  simp only [putU32, List.cons_append, List.nil_append, frameHeader]
  omega

/-- Setting the compression bit on a 31-bit length is addition. -/
theorem lor_compression_bit (a : Nat) (h : a < 2 ^ 31) :
    a ||| COMPRESSION_BIT = 2 ^ 31 + a := by
  rw [COMPRESSION_BIT, Nat.or_comm]
  have h2 := Nat.mul_add_lt_is_or h 1
  simpa using h2.symm

/-! ## Shape of the two `encode_frame` branches -/

/-- Uncompressed branch: when the encoded length is at most
`COMPRESSION_LIMIT`, `encode_frame` appends the 4-byte header followed by
the plain encoding after the existing buffer contents. -/
theorem encode_frame_small {M : Type} (g : GzipModel) (c : MsgCodec M)
    (m : M) (buf : List Nat) (h : (c.enc m).length ≤ COMPRESSION_LIMIT) :
    encode_frame g c m buf =
      (.ok (), buf ++ putU32 (c.enc m).length ++ c.enc m) := by
  rw [encode_frame]
  rw [if_neg (by simp only [COMPRESSION_LIMIT] at h; simp only [MAX_FRAME]; omega)]
  rw [if_neg (by omega)]

/-- Compressed branch, general initial buffer: `split_off(LEN_LEN)` splits
at absolute index 4, so the frame is assembled out of
`(buf ++ putU32 size).drop 4` followed by the gzip output, under a header
that covers both. -/
theorem encode_frame_big {M : Type} (g : GzipModel) (c : MsgCodec M)
    (m : M) (buf : List Nat) (hlo : COMPRESSION_LIMIT < (c.enc m).length)
    (hhi : (c.enc m).length < MAX_FRAME) :
    encode_frame g c m buf =
      (.ok (), putU32
          (((buf ++ putU32 (c.enc m).length).drop LEN_LEN ++
              g.comp (c.enc m)).length ||| COMPRESSION_BIT) ++
        ((buf ++ putU32 (c.enc m).length).drop LEN_LEN ++ g.comp (c.enc m))) := by
  rw [encode_frame]
  rw [if_neg (by omega)]
  rw [if_pos hlo]

/-- Compressed branch from an empty buffer: header is the gzip output
length with the compression bit set, payload is exactly the gzip output. -/
theorem encode_frame_big_empty {M : Type} (g : GzipModel) (c : MsgCodec M)
    (m : M) (hlo : COMPRESSION_LIMIT < (c.enc m).length)
    (hhi : (c.enc m).length < MAX_FRAME) :
    encode_frame g c m [] =
      (.ok (), putU32 ((g.comp (c.enc m)).length ||| COMPRESSION_BIT) ++
        g.comp (c.enc m)) := by
  rw [encode_frame_big g c m [] hlo hhi]
  simp [putU32, LEN_LEN]

/-! ## Decoding an encoded frame -/

/-- Decoding the frame of `m` (encoded into an empty buffer) followed by
any trailing bytes succeeds with `m` and consumes exactly the frame.
`hg` bounds the gzip output so the 31-bit header length is exact; it is
vacuous for the uncompressed branch. -/
theorem decode_frame_frameBytes {M : Type} (g : GzipModel) (c : MsgCodec M)
    (m : M) (rest : List Nat) (hsz : (c.enc m).length < MAX_FRAME)
    (hg : (g.comp (c.enc m)).length < 2 ^ 31) :
    decode_frame g c (frameBytes g c m ++ rest) = .ok (m, rest) := by
  by_cases hlim : (c.enc m).length ≤ COMPRESSION_LIMIT
  · -- uncompressed branch
    have hsz31 : (c.enc m).length < 2 ^ 31 := by
      simp only [COMPRESSION_LIMIT] at hlim; omega
    rw [frameBytes, encode_frame_small g c m [] hlim]
    simp only [List.nil_append, List.append_assoc]
    rw [show (putU32 (c.enc m).length ++ (c.enc m ++ rest)) =
      (c.enc m).length % 2 ^ 32 / 2 ^ 24 % 256 ::
      (c.enc m).length % 2 ^ 32 / 2 ^ 16 % 256 ::
      (c.enc m).length % 2 ^ 32 / 2 ^ 8 % 256 ::
      (c.enc m).length % 2 ^ 32 % 256 :: (c.enc m ++ rest) from rfl]
    rw [decode_frame]
    have hhdr :
        (c.enc m).length % 2 ^ 32 / 2 ^ 24 % 256 * 2 ^ 24 +
          (c.enc m).length % 2 ^ 32 / 2 ^ 16 % 256 * 2 ^ 16 +
          (c.enc m).length % 2 ^ 32 / 2 ^ 8 % 256 * 2 ^ 8 +
          (c.enc m).length % 2 ^ 32 % 256 = (c.enc m).length :=
      putU32_arith _ (by omega)
    have hlen : (c.enc m).length % 2 ^ 31 = (c.enc m).length := Nat.mod_eq_of_lt hsz31
    have hflag : (c.enc m).length / 2 ^ 31 % 2 = 0 := by omega
    simp only [hhdr, decode_header, hlen, hflag]
    have htake : (c.enc m ++ rest).take (c.enc m).length = c.enc m :=
      List.take_left' rfl
    have hdrop : (c.enc m ++ rest).drop (c.enc m).length = rest :=
      List.drop_left' rfl
    rw [if_pos (by simp)]
    simp [htake, hdrop, c.dec_enc]
  · -- compressed branch
    have hlo : COMPRESSION_LIMIT < (c.enc m).length := by omega
    rw [frameBytes, encode_frame_big_empty g c m hlo hsz]
    rw [lor_compression_bit _ hg]
    simp only [List.append_assoc]
    rw [show (putU32 (2 ^ 31 + (g.comp (c.enc m)).length) ++
        (g.comp (c.enc m) ++ rest)) =
      (2 ^ 31 + (g.comp (c.enc m)).length) % 2 ^ 32 / 2 ^ 24 % 256 ::
      (2 ^ 31 + (g.comp (c.enc m)).length) % 2 ^ 32 / 2 ^ 16 % 256 ::
      (2 ^ 31 + (g.comp (c.enc m)).length) % 2 ^ 32 / 2 ^ 8 % 256 ::
      (2 ^ 31 + (g.comp (c.enc m)).length) % 2 ^ 32 % 256 ::
      (g.comp (c.enc m) ++ rest) from rfl]
    rw [decode_frame]
    have hhdr :
        (2 ^ 31 + (g.comp (c.enc m)).length) % 2 ^ 32 / 2 ^ 24 % 256 * 2 ^ 24 +
          (2 ^ 31 + (g.comp (c.enc m)).length) % 2 ^ 32 / 2 ^ 16 % 256 * 2 ^ 16 +
          (2 ^ 31 + (g.comp (c.enc m)).length) % 2 ^ 32 / 2 ^ 8 % 256 * 2 ^ 8 +
          (2 ^ 31 + (g.comp (c.enc m)).length) % 2 ^ 32 % 256 =
          2 ^ 31 + (g.comp (c.enc m)).length :=
      putU32_arith _ (by omega)
    have hlen : (2 ^ 31 + (g.comp (c.enc m)).length) % 2 ^ 31 =
        (g.comp (c.enc m)).length := by omega
    have hflag : (2 ^ 31 + (g.comp (c.enc m)).length) / 2 ^ 31 % 2 = 1 := by
      omega
    simp only [hhdr, decode_header, hlen, hflag]
    have htake : (g.comp (c.enc m) ++ rest).take (g.comp (c.enc m)).length =
        g.comp (c.enc m) := List.take_left' rfl
    have hdrop : (g.comp (c.enc m) ++ rest).drop (g.comp (c.enc m)).length =
        rest := List.drop_left' rfl
    rw [if_pos (by simp)]
    simp [htake, hdrop, g.decomp_comp, c.dec_enc]

/-! ## Concrete instances used by witnesses

The frame layer is generic in the inner codec and the compressor (Rust:
`FrameCoder` is implemented via the `prost::Message` bound; gzip comes
from `flate2`).  The witnesses instantiate them with transparent inverse
pairs so that the frame layer can be evaluated on concrete inputs. -/

/-- A compressor model whose compressor and decompressor are the identity. -/
def gzId : GzipModel := ⟨id, id, fun _ => rfl⟩

/-- A message codec on raw byte lists: encoding is the identity. -/
def bytesCodec : MsgCodec (List Nat) := ⟨id, some, fun _ => rfl⟩

/-- A message codec whose single message encodes to `MAX_FRAME` bytes. -/
def hugeCodec : MsgCodec Unit :=
  ⟨fun _ => List.replicate MAX_FRAME 0, fun _ => some (), fun _ => rfl⟩

/-! ## Claims C1, C2, C5, C6 -/

/-- C1: for every well-formed message `m` whose encoded length is below
the frame limit (`MAX_FRAME`) — with the compressed payload fitting the
31-bit header — encoding `m` with `encode_frame` into an empty buffer
succeeds and decoding that buffer with `decode_frame` yields `m` back
(and consumes the whole buffer). -/
theorem framing_roundtrip {M : Type} (g : GzipModel) (c : MsgCodec M) (m : M)
    (hsz : (c.enc m).length < MAX_FRAME)
    (hg : (g.comp (c.enc m)).length < 2 ^ 31) :
    (encode_frame g c m []).1 = .ok () ∧
    decode_frame g c (encode_frame g c m []).2 = .ok (m, []) := by
  refine ⟨?_, ?_⟩
  · by_cases hlim : (c.enc m).length ≤ COMPRESSION_LIMIT
    · rw [encode_frame_small g c m [] hlim]
    · rw [encode_frame_big_empty g c m (by omega) hsz]
  · have h := decode_frame_frameBytes g c m [] hsz hg
    simpa [frameBytes] using h

/-- Witness for C1 at the concrete message `[1, 2, 3]`. -/
theorem framing_roundtrip_witness :
    ((bytesCodec.enc [1, 2, 3]).length < MAX_FRAME ∧
      (gzId.comp (bytesCodec.enc [1, 2, 3])).length < 2 ^ 31) ∧
    decode_frame gzId bytesCodec (encode_frame gzId bytesCodec [1, 2, 3] []).2 =
      .ok ([1, 2, 3], []) :=
  ⟨⟨by decide, by decide⟩,
    (framing_roundtrip gzId bytesCodec [1, 2, 3] (by decide) (by decide)).2⟩

/-- C2: if the encoded length is at most `COMPRESSION_LIMIT` (1436), the
frame written into an empty buffer is the plain-length header followed by
the uncompressed encoding, and the header's compression flag is 0 with the
lower 31 bits equal to that length; if the encoded length is strictly
greater (and below the frame limit, with the gzip output fitting 31 bits),
the frame is the flagged header followed by the gzip output, the flag is
1, and the lower 31 bits equal the compressed payload's byte length. -/
theorem compression_threshold {M : Type} (g : GzipModel) (c : MsgCodec M) (m : M) :
    ((c.enc m).length ≤ COMPRESSION_LIMIT →
      (encode_frame g c m []).2 = putU32 (c.enc m).length ++ c.enc m ∧
      decode_header (frameHeader (encode_frame g c m []).2) =
        ((c.enc m).length, false)) ∧
    (COMPRESSION_LIMIT < (c.enc m).length → (c.enc m).length < MAX_FRAME →
      (g.comp (c.enc m)).length < 2 ^ 31 →
      (encode_frame g c m []).2 =
        putU32 ((g.comp (c.enc m)).length ||| COMPRESSION_BIT) ++
          g.comp (c.enc m) ∧
      decode_header (frameHeader (encode_frame g c m []).2) =
        ((g.comp (c.enc m)).length, true)) := by
  constructor
  · intro hlim
    have hsz31 : (c.enc m).length < 2 ^ 31 := by
      simp only [COMPRESSION_LIMIT] at hlim; omega
    rw [encode_frame_small g c m [] hlim]
    refine ⟨by simp, ?_⟩
    simp only [List.nil_append]
    rw [frameHeader_putU32 _ (by omega)]
    simp only [decode_header, Prod.mk.injEq]
    constructor
    · omega
    · simp only [decide_eq_false_iff_not]
      omega
  · intro hlo hhi hg
    rw [encode_frame_big_empty g c m hlo hhi]
    refine ⟨rfl, ?_⟩
    rw [lor_compression_bit _ hg]
    rw [frameHeader_putU32 _ (by omega)]
    simp only [decode_header, Prod.mk.injEq]
    constructor
    · omega
    · simp only [decide_eq_true_eq]
      omega

/-- Witness for C2: both branches at concrete messages — `[1, 2, 3]`
(3 bytes, stays uncompressed) and 1437 one-bytes (gets compressed). -/
theorem compression_threshold_witness :
    ((bytesCodec.enc [1, 2, 3]).length ≤ COMPRESSION_LIMIT ∧
      decode_header (frameHeader (encode_frame gzId bytesCodec [1, 2, 3] []).2) =
        ((bytesCodec.enc [1, 2, 3]).length, false)) ∧
    (COMPRESSION_LIMIT < (bytesCodec.enc (List.replicate 1437 1)).length ∧
      decode_header
          (frameHeader (encode_frame gzId bytesCodec (List.replicate 1437 1) []).2) =
        ((gzId.comp (bytesCodec.enc (List.replicate 1437 1))).length, true)) :=
  ⟨⟨by decide,
    ((compression_threshold gzId bytesCodec [1, 2, 3]).1 (by decide)).2⟩,
   ⟨by simp [bytesCodec, COMPRESSION_LIMIT],
    ((compression_threshold gzId bytesCodec (List.replicate 1437 1)).2
      (by simp [bytesCodec, COMPRESSION_LIMIT])
      (by simp [bytesCodec, MAX_FRAME])
      (by simp [gzId, bytesCodec])).2⟩⟩

/-- C6: when the encoded length reaches `MAX_FRAME` (= `2^31`),
`encode_frame` fails with `FrameError` and the output buffer is returned
unchanged — the length check precedes every write. -/
theorem frame_error_on_oversize {M : Type} (g : GzipModel) (c : MsgCodec M)
    (m : M) (buf : List Nat) (h : 2 ^ 31 ≤ (c.enc m).length) :
    encode_frame g c m buf = (.error .FrameError, buf) := by
  rw [encode_frame, if_pos (by simp only [MAX_FRAME]; omega)]

/-- Witness for C6: a message encoding to exactly `2^31` bytes fails and
leaves the (non-empty) buffer `[7]` untouched. -/
theorem frame_error_on_oversize_witness :
    2 ^ 31 ≤ (hugeCodec.enc ()).length ∧
    encode_frame gzId hugeCodec () [7] = (.error .FrameError, [7]) :=
  ⟨by rw [show (hugeCodec.enc ()).length = MAX_FRAME from
        List.length_replicate MAX_FRAME 0, MAX_FRAME]; decide,
   frame_error_on_oversize gzId hugeCodec () [7]
     (by rw [show (hugeCodec.enc ()).length = MAX_FRAME from
        List.length_replicate MAX_FRAME 0, MAX_FRAME]; decide)⟩

/-- C5 counterexample: one compressed-size message (1437 bytes under the
identity codec) encoded into the non-empty buffer `[9, 9, 9, 9, 9]`.
`encode_frame` succeeds, but the prior buffer contents are *not* a prefix
of the result: `split_off(LEN_LEN)` splits at absolute index 4, so the
first four prior bytes are dropped and the header covers the prior
remnant plus the compressed payload.  (The corruption is independent of
the compressor: the first output byte is the header byte
`≥ 128` — the compression bit — never the prior byte `9`.) -/
theorem frame_append_counterexample :
    (encode_frame gzId bytesCodec (List.replicate 1437 1) [9, 9, 9, 9, 9]).1 =
      .ok () ∧
    List.isPrefixOf [9, 9, 9, 9, 9]
      (encode_frame gzId bytesCodec (List.replicate 1437 1) [9, 9, 9, 9, 9]).2 =
      false := by
  constructor
  · rfl
  · rfl

/-- C5 (amended): a successful `encode_frame` leaves the prior buffer
contents unchanged as a prefix and appends exactly one well-formed frame
*in the uncompressed branch* (encoded length ≤ 1436, any prior buffer);
in the compressed branch this holds only for an empty buffer — with a
non-empty buffer the compressed branch instead rebuilds the buffer as a
flagged header over `(buf ++ putU32 size).drop 4 ++ comp(enc m)`,
destroying the first 4 prior bytes. -/
theorem frame_append_amended {M : Type} (g : GzipModel) (c : MsgCodec M)
    (m : M) (buf : List Nat) (hsz : (c.enc m).length < MAX_FRAME) :
    ((c.enc m).length ≤ COMPRESSION_LIMIT →
      encode_frame g c m buf = (.ok (), buf ++ frameBytes g c m)) ∧
    (COMPRESSION_LIMIT < (c.enc m).length →
      encode_frame g c m [] = (.ok (), frameBytes g c m) ∧
      encode_frame g c m buf =
        (.ok (), putU32
            (((buf ++ putU32 (c.enc m).length).drop LEN_LEN ++
                g.comp (c.enc m)).length ||| COMPRESSION_BIT) ++
          ((buf ++ putU32 (c.enc m).length).drop LEN_LEN ++
            g.comp (c.enc m)))) := by
  constructor
  · intro hlim
    rw [encode_frame_small g c m buf hlim]
    rw [frameBytes, encode_frame_small g c m [] hlim]
    simp
  · intro hlo
    refine ⟨?_, encode_frame_big g c m buf hlo hsz⟩
    have h := encode_frame_big_empty g c m hlo hsz
    rw [frameBytes, h]

/-- Witness for C5 (amended): the uncompressed branch at `[1, 2, 3]` with
prior buffer `[9, 9]`, and the compressed branch at 1437 one-bytes. -/
theorem frame_append_amended_witness :
    ((bytesCodec.enc [1, 2, 3]).length < MAX_FRAME ∧
      (bytesCodec.enc [1, 2, 3]).length ≤ COMPRESSION_LIMIT ∧
      encode_frame gzId bytesCodec [1, 2, 3] [9, 9] =
        (.ok (), [9, 9] ++ frameBytes gzId bytesCodec [1, 2, 3])) ∧
    (COMPRESSION_LIMIT < (bytesCodec.enc (List.replicate 1437 1)).length ∧
      encode_frame gzId bytesCodec (List.replicate 1437 1) [] =
        (.ok (), frameBytes gzId bytesCodec (List.replicate 1437 1))) :=
  ⟨⟨by decide, by decide,
    (frame_append_amended gzId bytesCodec [1, 2, 3] [9, 9] (by decide)).1
      (by decide)⟩,
   ⟨by simp [bytesCodec, COMPRESSION_LIMIT],
    ((frame_append_amended gzId bytesCodec (List.replicate 1437 1) []
        (by simp [bytesCodec, MAX_FRAME])).2
      (by simp [bytesCodec, COMPRESSION_LIMIT])).1⟩⟩

/-! ## `read_frame` (frame.rs 100–118)

`read_frame` reads a `u32` header from the byte source, reserves
`LEN_LEN + len` bytes, writes the header back into the caller's buffer
(`buf.put_u32(header)`) and reads exactly `len` payload bytes after it.
The byte source is embedded as the list of bytes it will deliver; a source
with too few bytes makes `read_u32`/`read_exact` fail with an I/O error
(premature EOF), embedded as `IoError`.  The model matches the source for
an empty initial buffer, which is what both call sites pass (`poll_next`
passes the split-off of an empty `rbuf`; the test passes a fresh
`BytesMut`). -/

def read_frame (input buf : List Nat) : Except KvError (List Nat × List Nat) :=
  match input with
  | b0 :: b1 :: b2 :: b3 :: rest =>
    let header := b0 * 2 ^ 24 + b1 * 2 ^ 16 + b2 * 2 ^ 8 + b3
    let len := (decode_header header).1
    if len ≤ rest.length then
      .ok (buf ++ putU32 header ++ rest.take len, rest.drop len)
    else .error .IoError
  | _ => .error .IoError

/-! ## `ProstStream` (`src/network/stream.rs`)

The stream state holds the wrapped byte stream (split into the bytes still
to be read, `input`, and the bytes written so far, `output`), the read and
write buffers, the `written` counter and whether the write side has been
shut down.  The model is synchronous: the byte source delivers its bytes
immediately and the sink accepts every write (the repository's own
`DummyStream` test double behaves exactly like this), so `Poll::Pending`
never occurs and each `poll_*` call is one state transition. -/

structure ProstState where
  input : List Nat
  output : List Nat
  rbuf : List Nat
  wbuf : List Nat
  written : Nat
  shutdown : Bool
deriving DecidableEq

/-- `ProstStream::new` (stream.rs 100–109): empty buffers, zero counter. -/
def ProstState.new (input : List Nat) : ProstState :=
  ⟨input, [], [], [], 0, false⟩

/-- Outcome of one poll: the `assert` at the top of `poll_next` panics
(`panicked`), the call returns an error (`failed`), or it succeeds. -/
inductive StepResult (α : Type) where
  | panicked
  | failed (e : KvError)
  | ok (a : α)
deriving DecidableEq

/-- `Stream::poll_next` (stream.rs 36–50): assert `rbuf` is empty, split
it off as `rest`, `read_frame` into `rest`, unsplit back into `rbuf`,
`decode_frame` from `rbuf`.  A failed production aborts with the error
(the run model stops there); the panic of the assert is `panicked`. -/
def poll_next {M : Type} (g : GzipModel) (c : MsgCodec M) (s : ProstState) :
    StepResult (M × ProstState) :=
  if s.rbuf = [] then
    match read_frame s.input s.rbuf with
    | .error e => .failed e
    | .ok (frame, input') =>
      match decode_frame g c frame with
      | .error e => .failed e
      | .ok (m, remaining) =>
        .ok (m, { s with input := input', rbuf := remaining })
  else .panicked

/-- `Sink::start_send` (stream.rs 64–68): encode the item into `wbuf`. -/
def start_send {M : Type} (g : GzipModel) (c : MsgCodec M) (m : M)
    (s : ProstState) : StepResult ProstState :=
  match encode_frame g c m s.wbuf with
  | (.ok _, w) => .ok { s with wbuf := w }
  | (.error e, _) => .failed e

/-- `Sink::poll_flush` (stream.rs 70–85): loop writing `wbuf[written..]`
to the underlying stream until `written == wbuf.len()`, then clear `wbuf`
and reset `written`.  With the all-accepting sink the loop transfers
exactly `wbuf.drop written`. -/
def poll_flush (s : ProstState) : ProstState :=
  { s with output := s.output ++ s.wbuf.drop s.written, wbuf := [], written := 0 }

/-- `Sink::poll_close` (stream.rs 87–91): flush, then shut the write side
down.  This is the only transition that sets `shutdown`. -/
def poll_close (s : ProstState) : ProstState :=
  { poll_flush s with shutdown := true }

/-- One caller-visible operation on a `ProstStream` whose outbound message
type is `B`. -/
inductive StreamOp (B : Type) where
  | next
  | send (m : B)
  | flush
  | close

/-- Run a sequence of stream operations, stopping at the first panic or
error (inbound messages decode with `cIn`, outbound encode with `cOut`). -/
def run_ops {A B : Type} (g : GzipModel) (cIn : MsgCodec A) (cOut : MsgCodec B) :
    List (StreamOp B) → ProstState → StepResult ProstState
  | [], s => .ok s
  | .next :: ops, s =>
    match poll_next g cIn s with
    | .panicked => .panicked
    | .failed e => .failed e
    | .ok (_, s') => run_ops g cIn cOut ops s'
  | .send m :: ops, s =>
    match start_send g cOut m s with
    | .panicked => .panicked
    | .failed e => .failed e
    | .ok s' => run_ops g cIn cOut ops s'
  | .flush :: ops, s => run_ops g cIn cOut ops (poll_flush s)
  | .close :: ops, s => run_ops g cIn cOut ops (poll_close s)

/-! ## Lemmas about `poll_next` -/

/-- Reconstructing a `u32` from the 4 bytes `putU32` produced, without a
bound on the input: the result is the truncated value. -/
theorem putU32_arith' (n : Nat) :
    n % 2 ^ 32 / 2 ^ 24 % 256 * 2 ^ 24 + n % 2 ^ 32 / 2 ^ 16 % 256 * 2 ^ 16 +
      n % 2 ^ 32 / 2 ^ 8 % 256 * 2 ^ 8 + n % 2 ^ 32 % 256 = n % 2 ^ 32 := by
  omega

/-- A successful `read_frame` into an empty buffer delivers a header
(4 `putU32` bytes) followed by exactly the payload length the header
announces. -/
theorem read_frame_ok_shape (input frame input' : List Nat)
    (h : read_frame input [] = .ok (frame, input')) :
    ∃ H payload, frame = putU32 H ++ payload ∧ payload.length = H % 2 ^ 31 := by
  match input with
  | [] => simp [read_frame] at h
  | [b0] => simp [read_frame] at h
  | [b0, b1] => simp [read_frame] at h
  | [b0, b1, b2] => simp [read_frame] at h
  | b0 :: b1 :: b2 :: b3 :: rest =>
    simp only [read_frame, List.nil_append] at h
    split at h
    · rename_i hle
      simp only [Except.ok.injEq, Prod.mk.injEq] at h
      refine ⟨b0 * 2 ^ 24 + b1 * 2 ^ 16 + b2 * 2 ^ 8 + b3,
        rest.take (decode_header (b0 * 2 ^ 24 + b1 * 2 ^ 16 + b2 * 2 ^ 8 + b3)).1,
        h.1.symm, ?_⟩
      rw [List.length_take, decode_header]
      simp only [decode_header] at hle
      omega
    · exact absurd h (by simp)

/-- `decode_frame` on a header-plus-exact-payload buffer consumes the
whole buffer: whatever it returns, the leftover is empty. -/
theorem decode_frame_consumes {M : Type} (g : GzipModel) (c : MsgCodec M)
    (H : Nat) (payload : List Nat) (hL : payload.length = H % 2 ^ 31)
    (m : M) (rem : List Nat)
    (h : decode_frame g c (putU32 H ++ payload) = .ok (m, rem)) : rem = [] := by
  rw [show putU32 H ++ payload =
    H % 2 ^ 32 / 2 ^ 24 % 256 :: H % 2 ^ 32 / 2 ^ 16 % 256 ::
    H % 2 ^ 32 / 2 ^ 8 % 256 :: H % 2 ^ 32 % 256 :: payload from rfl] at h
  simp only [decode_frame] at h
  rw [putU32_arith' H] at h
  have hlen : (decode_header (H % 2 ^ 32)).1 = H % 2 ^ 31 := by
    rw [decode_header]
    omega
  rw [hlen] at h
  rw [if_pos hL.ge] at h
  split at h
  · rename_i m' hdec
    simp only [Except.ok.injEq, Prod.mk.injEq] at h
    rw [← h.2, ← hL, List.drop_length]
  · exact absurd h (by simp)

/-- A successful `poll_next` leaves the read buffer empty: `read_frame`
delivers exactly `LEN_LEN + len` bytes and `decode_frame` consumes all of
them (`get_u32` takes 4, `advance(len)` takes the rest). -/
theorem poll_next_ok_rbuf {M : Type} (g : GzipModel) (c : MsgCodec M)
    (s : ProstState) (m : M) (s' : ProstState)
    (h : poll_next g c s = .ok (m, s')) : s'.rbuf = [] := by
  rw [poll_next] at h
  split at h
  · rename_i hr
    rw [hr] at h
    split at h
    · exact absurd h (by simp)
    · rename_i frame input' heq
      split at h
      · exact absurd h (by simp)
      · rename_i m' remaining hdec
        simp only [StepResult.ok.injEq, Prod.mk.injEq] at h
        obtain ⟨H, payload, hfr, hlenp⟩ := read_frame_ok_shape _ _ _ heq
        subst hfr
        have hrem := decode_frame_consumes g c H payload hlenp m' remaining hdec
        rw [← h.2]
        simpa using hrem
  · exact absurd h (by simp)

/-- `poll_next` on an empty read buffer never hits the assert. -/
theorem poll_next_not_panic {M : Type} (g : GzipModel) (c : MsgCodec M)
    (s : ProstState) (hr : s.rbuf = []) : poll_next g c s ≠ .panicked := by
  rw [poll_next, if_pos hr]
  split
  · simp
  · split <;> simp

/-- `start_send` never panics (it only encodes into `wbuf`). -/
theorem start_send_not_panic {M : Type} (g : GzipModel) (c : MsgCodec M)
    (m : M) (s : ProstState) : start_send g c m s ≠ .panicked := by
  rw [start_send]
  split <;> simp

/-- `start_send` does not touch the read buffer. -/
theorem start_send_ok_rbuf {M : Type} (g : GzipModel) (c : MsgCodec M)
    (m : M) (s s' : ProstState) (h : start_send g c m s = .ok s') :
    s'.rbuf = s.rbuf := by
  rw [start_send] at h
  split at h
  · simp only [StepResult.ok.injEq] at h
    rw [← h]
  · exact absurd h (by simp)

/-- Running any operation sequence from a state with an empty read buffer
never panics: the `rbuf = []` invariant is preserved by every transition,
so the assert at the top of `poll_next` always holds. -/
theorem run_ops_no_panic {A B : Type} (g : GzipModel) (cIn : MsgCodec A)
    (cOut : MsgCodec B) (ops : List (StreamOp B)) (s : ProstState)
    (hr : s.rbuf = []) : run_ops g cIn cOut ops s ≠ .panicked := by
  induction ops generalizing s with
  | nil => simp [run_ops]
  | cons op ops ih =>
    cases op with
    | next =>
      rw [run_ops]
      rcases hp : poll_next g cIn s with _ | e | ⟨m, s'⟩
      · exact absurd hp (poll_next_not_panic g cIn s hr)
      · simp
      · exact ih s' (poll_next_ok_rbuf g cIn s m s' hp)
    | send m =>
      rw [run_ops]
      rcases hp : start_send g cOut m s with _ | e | s'
      · exact absurd hp (start_send_not_panic g cOut m s)
      · simp
      · exact ih s' (by rw [start_send_ok_rbuf g cOut m s s' hp, hr])
    | flush =>
      rw [run_ops]
      exact ih _ (by simpa [poll_flush] using hr)
    | close =>
      rw [run_ops]
      exact ih _ (by simpa [poll_close, poll_flush] using hr)

/-! ## Claim C4 -/

/-- C4: after each successful production (`poll_next` returning a decoded
message) the read buffer `rbuf` is empty; after each `poll_flush` the
write buffer `wbuf` is empty and the `written` counter is zero; and along
any operation sequence on a fresh `ProstStream` the assert that `rbuf` is
empty at the start of `poll_next` never fires. -/
theorem prost_stream_buffer_invariants :
    (∀ (M : Type) (g : GzipModel) (c : MsgCodec M) (s : ProstState) (m : M)
        (s' : ProstState), poll_next g c s = .ok (m, s') → s'.rbuf = []) ∧
    (∀ s : ProstState, (poll_flush s).wbuf = [] ∧ (poll_flush s).written = 0) ∧
    (∀ (A B : Type) (g : GzipModel) (cIn : MsgCodec A) (cOut : MsgCodec B)
        (ops : List (StreamOp B)) (input : List Nat),
      run_ops g cIn cOut ops (ProstState.new input) ≠ .panicked) :=
  ⟨fun _ g c s m s' h => poll_next_ok_rbuf g c s m s' h,
   fun _ => ⟨rfl, rfl⟩,
   fun _ _ g cIn cOut ops _ => run_ops_no_panic g cIn cOut ops _ rfl⟩

/-- Witness for C4: one concrete frame (`header 2, payload [5, 6]`)
produced by `poll_next`, whose post-state has an empty read buffer; and a
concrete next/send/flush run that does not panic. -/
theorem prost_stream_buffer_invariants_witness :
    (poll_next gzId bytesCodec (ProstState.new [0, 0, 0, 2, 5, 6]) =
        .ok ([5, 6], ⟨[], [], [], [], 0, false⟩) ∧
      (⟨[], [], [], [], 0, false⟩ : ProstState).rbuf = []) ∧
    run_ops gzId bytesCodec bytesCodec [.next, .send [1], .flush]
      (ProstState.new [0, 0, 0, 2, 5, 6]) ≠ .panicked :=
  ⟨⟨rfl, prost_stream_buffer_invariants.1 (List Nat) gzId bytesCodec
      (ProstState.new [0, 0, 0, 2, 5, 6]) [5, 6] ⟨[], [], [], [], 0, false⟩ rfl⟩,
   prost_stream_buffer_invariants.2.2 (List Nat) (List Nat) gzId bytesCodec
     bytesCodec [.next, .send [1], .flush] [0, 0, 0, 2, 5, 6]⟩

/-! ## `ProstClientStream::execute_unary` (network/mod.rs 66–74)

`execute_unary` sends the command (`SinkExt::send` is `poll_ready` —
always ready — then `start_send` then `poll_flush`) and awaits one inbound
message.  The `None => Err(Internal(..))` arm of the source's match is
unreachable: this `poll_next` always yields `Some(..)` (on EOF,
`read_u32` fails with `UnexpectedEof`, surfacing as `Some(Err(..))` —
`IoError` in the model).  `execute_unary` never calls `poll_close`. -/

def execute_unary {A B : Type} (g : GzipModel) (cIn : MsgCodec A)
    (cOut : MsgCodec B) (cmd : B) (s : ProstState) :
    StepResult (A × ProstState) :=
  match start_send g cOut cmd s with
  | .panicked => .panicked
  | .failed e => .failed e
  | .ok s1 => poll_next g cIn (poll_flush s1)

/-! ### Helper lemmas for C10 -/

/-- An in-bounds message encodes from an empty buffer into its frame. -/
theorem encode_frame_ok_empty {M : Type} (g : GzipModel) (c : MsgCodec M)
    (m : M) (hsz : (c.enc m).length < MAX_FRAME) :
    encode_frame g c m [] = (.ok (), frameBytes g c m) := by
  rw [frameBytes]
  by_cases hlim : (c.enc m).length ≤ COMPRESSION_LIMIT
  · rw [encode_frame_small g c m [] hlim]
  · rw [encode_frame_big_empty g c m (by omega) hsz]

/-- Every in-bounds frame is a `u32` header followed by exactly the
payload the header announces. -/
theorem frameBytes_shape {M : Type} (g : GzipModel) (c : MsgCodec M) (m : M)
    (hsz : (c.enc m).length < MAX_FRAME)
    (hg : (g.comp (c.enc m)).length < 2 ^ 31) :
    ∃ H payload, frameBytes g c m = putU32 H ++ payload ∧
      payload.length = H % 2 ^ 31 ∧ H < 2 ^ 32 := by
  by_cases hlim : (c.enc m).length ≤ COMPRESSION_LIMIT
  · refine ⟨(c.enc m).length, c.enc m, ?_, ?_, ?_⟩
    · rw [frameBytes, encode_frame_small g c m [] hlim]
      simp
    · simp only [COMPRESSION_LIMIT] at hlim
      omega
    · simp only [COMPRESSION_LIMIT] at hlim
      omega
  · refine ⟨(g.comp (c.enc m)).length ||| COMPRESSION_BIT, g.comp (c.enc m),
      ?_, ?_, ?_⟩
    · rw [frameBytes, encode_frame_big_empty g c m (by omega) hsz]
    · rw [lor_compression_bit _ hg]
      omega
    · rw [lor_compression_bit _ hg]
      omega

/-- `read_frame` on a well-formed frame followed by trailing bytes
delivers exactly the frame and leaves the trailing bytes in the source. -/
theorem read_frame_exact (H : Nat) (payload rest : List Nat)
    (hlen : payload.length = H % 2 ^ 31) :
    read_frame (putU32 H ++ payload ++ rest) [] =
      .ok (putU32 H ++ payload, rest) := by
  rw [List.append_assoc]
  rw [show putU32 H ++ (payload ++ rest) =
    H % 2 ^ 32 / 2 ^ 24 % 256 :: H % 2 ^ 32 / 2 ^ 16 % 256 ::
    H % 2 ^ 32 / 2 ^ 8 % 256 :: H % 2 ^ 32 % 256 :: (payload ++ rest) from rfl]
  rw [read_frame]
  rw [putU32_arith' H]
  have hlen2 : (decode_header (H % 2 ^ 32)).1 = payload.length := by
    rw [decode_header, hlen]
    omega
  rw [hlen2]
  rw [if_pos (by rw [List.length_append]; omega)]
  rw [List.take_left' rfl, List.drop_left' rfl]
  have hput : putU32 (H % 2 ^ 32) = putU32 H := by
    simp [putU32, Nat.mod_mod_of_dvd]
  rw [hput]
  simp

/-- `poll_next` on a state holding a well-formed frame (plus trailing
bytes) produces its message and leaves the read buffer empty. -/
theorem poll_next_frameBytes {M : Type} (g : GzipModel) (c : MsgCodec M)
    (m : M) (rest : List Nat) (s : ProstState) (hr : s.rbuf = [])
    (hin : s.input = frameBytes g c m ++ rest)
    (hsz : (c.enc m).length < MAX_FRAME)
    (hg : (g.comp (c.enc m)).length < 2 ^ 31) :
    poll_next g c s = .ok (m, { s with input := rest, rbuf := [] }) := by
  obtain ⟨H, payload, hfb, hplen, hH⟩ := frameBytes_shape g c m hsz hg
  rw [poll_next, if_pos hr, hr, hin, hfb]
  rw [read_frame_exact H payload rest hplen]
  have hdec : decode_frame g c (putU32 H ++ payload) = .ok (m, []) := by
    rw [← hfb]
    have h := decode_frame_frameBytes g c m [] hsz hg
    simpa using h
  simp [hdec]

/-! ## Claim C10 -/

/-- C10 counterexample: a successful `execute_unary` (command `[7]`, one
response frame `[0,0,0,2,5,6]` waiting in the source) returns the response
with `shutdown` still `false` — the helper never closes its substream
(`poll_close`, the only transition setting `shutdown`, is not called; the
repository's own example client reuses the same substream for a streaming
call after `execute_unary`). -/
theorem unary_close_counterexample :
    execute_unary gzId bytesCodec bytesCodec [7]
        (ProstState.new [0, 0, 0, 2, 5, 6]) =
      .ok ([5, 6], ⟨[], [0, 0, 0, 1, 7], [], [], 0, false⟩) ∧
    (⟨[], [0, 0, 0, 1, 7], [], [], 0, false⟩ : ProstState).shutdown = false :=
  ⟨rfl, rfl⟩

/-- C10 (amended): on a fresh substream, `execute_unary` writes exactly
one request frame to the underlying stream, consumes exactly one response
frame and returns its message, and leaves the substream open
(`shutdown = false`) rather than closing it; when the stream ends before a
response arrives (empty source) it returns an error, not a response. -/
theorem unary_one_shot_amended {A B : Type} (g : GzipModel) (cIn : MsgCodec A)
    (cOut : MsgCodec B) (cmd : B) (hsz : (cOut.enc cmd).length < MAX_FRAME) :
    (∀ (resp : A) (rest : List Nat),
        (cIn.enc resp).length < MAX_FRAME →
        (g.comp (cIn.enc resp)).length < 2 ^ 31 →
        execute_unary g cIn cOut cmd
            (ProstState.new (frameBytes g cIn resp ++ rest)) =
          .ok (resp, ⟨rest, frameBytes g cOut cmd, [], [], 0, false⟩)) ∧
    execute_unary g cIn cOut cmd (ProstState.new []) = .failed .IoError := by
  have hsend : ∀ input : List Nat,
      start_send g cOut cmd (ProstState.new input) =
        .ok ⟨input, [], [], frameBytes g cOut cmd, 0, false⟩ := by
    intro input
    rw [start_send]
    have hwb : (ProstState.new input).wbuf = [] := rfl
    rw [hwb, encode_frame_ok_empty g cOut cmd hsz]
    rfl
  have hstep : ∀ input : List Nat,
      execute_unary g cIn cOut cmd (ProstState.new input) =
        poll_next g cIn (poll_flush
          ⟨input, [], [], frameBytes g cOut cmd, 0, false⟩) := by
    intro input
    rw [execute_unary, hsend]
  constructor
  · intro resp rest hrsz hrg
    rw [hstep]
    have hflush : poll_flush ⟨frameBytes g cIn resp ++ rest, [], [],
        frameBytes g cOut cmd, 0, false⟩ =
        ⟨frameBytes g cIn resp ++ rest, frameBytes g cOut cmd, [], [],
          0, false⟩ := by
      simp [poll_flush]
    rw [hflush]
    exact poll_next_frameBytes g cIn resp rest _ rfl rfl hrsz hrg
  · rw [hstep]
    have hflush : poll_flush ⟨[], [], [], frameBytes g cOut cmd, 0, false⟩ =
        ⟨[], frameBytes g cOut cmd, [], [], 0, false⟩ := by
      simp [poll_flush]
    rw [hflush]
    rw [poll_next, if_pos rfl]
    rfl

/-- Witness for C10 (amended): toy codecs, command `[7]`, response `[5, 6]`. -/
theorem unary_one_shot_amended_witness :
    ((bytesCodec.enc [7]).length < MAX_FRAME ∧
      (bytesCodec.enc [5, 6]).length < MAX_FRAME ∧
      (gzId.comp (bytesCodec.enc [5, 6])).length < 2 ^ 31) ∧
    execute_unary gzId bytesCodec bytesCodec [7]
        (ProstState.new (frameBytes gzId bytesCodec [5, 6] ++ [9])) =
      .ok ([5, 6], ⟨[9], frameBytes gzId bytesCodec [7], [], [], 0, false⟩) :=
  ⟨⟨by decide, by decide, by decide⟩,
   (unary_one_shot_amended gzId bytesCodec bytesCodec [7] (by decide)).1
     [5, 6] [9] (by decide) (by decide)⟩

/-! ## Wire data model (`src/pb/abi.rs`)

Only the parts the service-layer claims need.  `Value` is a message
wrapping an optional oneof (`abi.rs` 154–176); the default value — the
spec's *none* — is the `none` of that option.  The `f64` payload of
`Float` is embedded as its 64-bit pattern (no claim touches floats). -/

inductive ValueData where
  | Str (s : String)
  | Binary (bs : List Nat)
  | Integer (i : Int)
  | Float (bits : Nat)
  | Bool (b : Bool)
deriving DecidableEq

/-- `Value` (abi.rs 154–159): `value: Option<value::Value>`. -/
abbrev Value : Type := Option ValueData

/-- `Kvpair` (abi.rs 120–127): key plus optional value. -/
structure Kvpair where
  key : String
  value : Option Value
deriving DecidableEq

/-- `CommandResponse` (abi.rs 38–49). -/
structure CommandResponse where
  status : Nat
  message : String
  values : List Value
  pairs : List Kvpair
deriving DecidableEq

/-- Modelled from the spec: `CommandResponse::ok()` lives in the absent
`pb/mod.rs`; per §4.3/§8 a success response is status 200 with no
message, values or pairs. -/
def CommandResponse.ok : CommandResponse := ⟨200, "", [], []⟩

/-- Modelled from the spec: the `KvError → CommandResponse` conversion of
the absent `pb/mod.rs` / `error.rs`, per §7: `NotFound → {404, msg}`,
`InvalidCommand → {400, msg}`, anything else `→ {500, msg}`; the message
carries the error's display text (`"Not found: {0}"` for `NotFound`, as
asserted by `dispatch_unsubscribe_random_id_should_error` in
`topic_service.rs`). -/
def errorResponse : KvError → CommandResponse
  | .NotFound s => ⟨404, "Not found: " ++ s, [], []⟩
  | .InvalidCommand s => ⟨400, "Invalid command: " ++ s, [], []⟩
  | _ => ⟨500, "Internal error", [], []⟩

/-! ## Association lists

Both the storage tables and the broker maps are concurrent hash maps in
the source; sequentialised here as association lists with first-match
lookup. -/

/-- Lookup in an association list. -/
def assocGet {κ α : Type} [DecidableEq κ] : List (κ × α) → κ → Option α
  | [], _ => none
  | (k', a) :: t, k => if k' = k then some a else assocGet t k

/-- Insert-or-replace in an association list. -/
def assocPut {κ α : Type} [DecidableEq κ] : List (κ × α) → κ → α → List (κ × α)
  | [], k, a => [(k, a)]
  | (k', b) :: t, k, a =>
    if k' = k then (k, a) :: t else (k', b) :: assocPut t k a

theorem assocGet_put_self {κ α : Type} [DecidableEq κ]
    (l : List (κ × α)) (k : κ) (a : α) : assocGet (assocPut l k a) k = some a := by
  induction l with
  | nil => simp [assocGet, assocPut]
  | cons p t ih =>
    by_cases h : p.1 = k
    · simp [assocPut, assocGet, h]
    · simp only [assocPut, h, if_false]
      simpa [assocGet, h] using ih

/-! ## Storage and HSET (claim C3)

Modelled from the spec: the storage backend (`storage/*.rs`) and the
command dispatcher for unary commands (`service/mod.rs`) are not under
`src/`.  Per §4.6 a store maps a table name to a table of key/value
pairs, `set` returns the prior value, and missing tables auto-create on
write; per §4.3 the `HSET` response carries `values = [previous value or
none]` with success status 200. -/

def Store : Type := List (String × List (String × Value))

/-- The prior value of `key` in `table` of `st` (the spec's
`get`/`set`-returns-prior view); `none`-the-`Option` means absent, which
the response materialises as the default (*none*) `Value`. -/
def storeGet (st : Store) (table key : String) : Option Value :=
  assocGet ((assocGet st table).getD []) key

/-- Modelled from the spec: `HSET{table, pair}` — write the pair, respond
with status 200 and the previous value (or the default *none* value). -/
def hset (st : Store) (table key : String) (v : Value) :
    CommandResponse × Store :=
  let tbl := (assocGet st table).getD []
  let prior := (assocGet tbl key).getD (none : Value)
  (⟨200, "", [prior], []⟩, assocPut st table (assocPut tbl key v))

/-- C3: a second `HSET` on the same table and key returns, as a success
response, `values = [v1]` — the value the first `HSET` wrote; an `HSET`
on a never-written key returns `values` = the *none* value. -/
theorem hset_returns_prior (st : Store) (t k : String) (v1 v2 : Value) :
    ((hset (hset st t k v1).2 t k v2).1.values = [v1] ∧
      (hset (hset st t k v1).2 t k v2).1.status = 200) ∧
    (∀ (st' : Store) (t' k' : String) (v : Value), storeGet st' t' k' = none →
      (hset st' t' k' v).1.values = [(none : Value)]) := by
  constructor
  · constructor
    · simp [hset, assocGet_put_self]
    · rfl
  · intro st' t' k' v h
    rw [storeGet] at h
    simp [hset, h]

/-- Witness for C3: overwriting `"k1"` in `"t1"` starting from the empty
store; the fresh-key case at the empty store. -/
theorem hset_returns_prior_witness :
    ((hset (hset [] "t1" "k1" (some (.Str "v1"))).2 "t1" "k1"
        (some (.Str "v2"))).1.values = [some (.Str "v1")] ∧
      storeGet [] "t1" "k1" = none ∧
      (hset [] "t1" "k1" (some (.Str "v1"))).1.values = [(none : Value)]) :=
  ⟨(hset_returns_prior [] "t1" "k1" (some (.Str "v1")) (some (.Str "v2"))).1.1,
   by decide,
   (hset_returns_prior [] "t1" "k1" (some (.Str "v1")) (some (.Str "v2"))).2
     [] "t1" "k1" (some (.Str "v1")) (by decide)⟩

/-! ## Topic broker (`service/topic.rs`, absent from `src/`)

Modelled from the spec (§3 Subscription, §4.4): the broker holds a
monotonic id counter starting at 1, the set of live subscriptions
(`id → topic`; §3 makes a subscription an `(id, topic, queue)` triple) and
the per-subscription bounded queues (capacity ≥ 128).  The concurrent
operations are sequentialised (each is atomic). -/

/-- The first response a subscription's stream delivers: success carrying
the id as an integer value (§4.4 "immediately enqueues a first response
carrying the id as an integer value"). -/
def subscribedResponse (id : Nat) : CommandResponse :=
  ⟨200, "", [some (.Integer (Int.ofNat id))], []⟩

/-- A publish fans out the payload values as a success response. -/
def publishResponse (data : List Value) : CommandResponse := ⟨200, "", data, []⟩

/-- Modelled from the spec: bounded queue capacity (§4.4 "capacity ≥ 128"). -/
def CAPACITY : Nat := 128

structure Broadcaster where
  nextId : Nat
  subs : List (Nat × String)
  queues : List (Nat × List CommandResponse)
deriving DecidableEq

/-- A fresh broker: the id counter starts at 1, no subscriptions. -/
def Broadcaster.init : Broadcaster := ⟨1, [], []⟩

/-- Modelled from the spec: `subscribe(topic)` allocates the next id,
registers the subscription, creates its queue and enqueues the first
response carrying the id. -/
def Broadcaster.subscribe (b : Broadcaster) (topic : String) :
    Nat × Broadcaster :=
  let id := b.nextId
  (id, ⟨id + 1, (id, topic) :: b.subs,
    (id, [subscribedResponse id]) :: b.queues⟩)

/-- Modelled from the spec: `unsubscribe(topic, id)` removes the
subscription and its queue, or fails `NotFound` when `(id, topic)` is not
registered; the `NotFound` payload is `"subscription {id}"` (asserted by
`dispatch_unsubscribe_random_id_should_error`). -/
def Broadcaster.unsubscribe (b : Broadcaster) (topic : String) (id : Nat) :
    Except KvError Broadcaster :=
  if (id, topic) ∈ b.subs then
    .ok ⟨b.nextId, b.subs.filter (fun p => p.1 != id),
      b.queues.filter (fun p => p.1 != id)⟩
  else .error (.NotFound ("subscription " ++ toString id))

/-- Modelled from the spec: the non-blocking `try-send` — enqueue when the
queue has room, otherwise unsubscribe the slow subscriber transparently. -/
def trySend (b : Broadcaster) (id : Nat) (r : CommandResponse) : Broadcaster :=
  match assocGet b.queues id with
  | some q =>
    if q.length < CAPACITY then
      { b with queues := assocPut b.queues id (q ++ [r]) }
    else
      ⟨b.nextId, b.subs.filter (fun p => p.1 != id),
        b.queues.filter (fun p => p.1 != id)⟩
  | none => b

/-- Modelled from the spec: `publish(topic, payload)` snapshots the
topic's subscriber ids, then try-sends the payload to each. -/
def Broadcaster.publish (b : Broadcaster) (topic : String)
    (data : List Value) : Broadcaster :=
  ((b.subs.filter (fun p => p.2 == topic)).map Prod.fst).foldl
    (fun acc id => trySend acc id (publishResponse data)) b

/-! ## `TopicService` dispatch (`src/service/topic_service.rs`)

Each `execute` returns a response stream; finite prefixes of streams are
embedded as lists.  `Subscribe` returns the `ReceiverStream` over its
queue (its content at return time is the first response); `Unsubscribe`
and `Publish` return one-element streams. -/

/-- `impl TopicService for Subscribe` (topic_service.rs 16–21). -/
def subscribe_execute (b : Broadcaster) (topic : String) :
    List CommandResponse × Broadcaster :=
  let r := b.subscribe topic
  ((assocGet r.2.queues r.1).getD [], r.2)

/-- `impl TopicService for Unsubscribe` (topic_service.rs 23–31):
`Ok → CommandResponse::ok()`, `Err(e) → e.into()`, as a one-element
stream. -/
def unsubscribe_execute (b : Broadcaster) (topic : String) (id : Nat) :
    List CommandResponse × Broadcaster :=
  match b.unsubscribe topic id with
  | .ok b' => ([CommandResponse.ok], b')
  | .error e => ([errorResponse e], b)

/-- `impl TopicService for Publish` (topic_service.rs 33–38): publish,
then a one-element stream holding `CommandResponse::ok()` — regardless of
how many subscribers the topic has. -/
def publish_execute (b : Broadcaster) (topic : String) (data : List Value) :
    List CommandResponse × Broadcaster :=
  ([CommandResponse.ok], b.publish topic data)

/-! ## Claim C7 -/

/-- C7: unsubscribing an id that is not a registered subscription of the
topic yields a one-element stream whose response has status 404 and whose
message contains the decimal representation of the id (and the broker is
unchanged); unsubscribing a registered subscription yields status 200. -/
theorem unsubscribe_unknown_404 (b : Broadcaster) (topic : String) (id : Nat) :
    ((id, topic) ∉ b.subs →
      unsubscribe_execute b topic id =
        ([⟨404, "Not found: subscription " ++ toString id, [], []⟩], b) ∧
      ∃ pre post, ("Not found: subscription " ++ toString id).data =
        pre ++ (toString id).data ++ post) ∧
    ((id, topic) ∈ b.subs →
      unsubscribe_execute b topic id =
        ([CommandResponse.ok],
          ⟨b.nextId, b.subs.filter (fun p => p.1 != id),
            b.queues.filter (fun p => p.1 != id)⟩) ∧
      CommandResponse.ok.status = 200) := by
  constructor
  · intro h
    constructor
    · rw [unsubscribe_execute, Broadcaster.unsubscribe, if_neg h]
      rw [show ("Not found: subscription " ++ toString id : String) =
        "Not found: " ++ ("subscription " ++ toString id) from by
          rw [← String.append_assoc]
          rfl]
      rfl
    · exact ⟨("Not found: subscription ").data, [], by simp⟩
  · intro h
    rw [unsubscribe_execute, Broadcaster.unsubscribe, if_pos h]
    exact ⟨rfl, rfl⟩

/-- Witness for C7: the repository's own test input — `UNSUBSCRIBE
("lobby", 9527)` on a fresh broker — yields the 404 response with message
`"Not found: subscription 9527"`; after subscribing, unsubscribing that id
yields 200. -/
theorem unsubscribe_unknown_404_witness :
    ((9527, "lobby") ∉ Broadcaster.init.subs ∧
      unsubscribe_execute Broadcaster.init "lobby" 9527 =
        ([⟨404, "Not found: subscription 9527", [], []⟩], Broadcaster.init)) ∧
    ((1, "lobby") ∈ (Broadcaster.init.subscribe "lobby").2.subs ∧
      (unsubscribe_execute (Broadcaster.init.subscribe "lobby").2 "lobby" 1).1 =
        [CommandResponse.ok]) :=
  ⟨⟨by decide,
    ((unsubscribe_unknown_404 Broadcaster.init "lobby" 9527).1 (by decide)).1⟩,
   ⟨by decide,
    by rw [((unsubscribe_unknown_404 (Broadcaster.init.subscribe "lobby").2
        "lobby" 1).2 (by decide)).1]⟩⟩

/-! ## Claim C8 -/

/-- C8: dispatching a `PUBLISH` yields a stream of exactly one response,
the success response with status 200 — also on a broker with no
subscribers at all (`Broadcaster.init`). -/
theorem publish_one_ok (b : Broadcaster) (topic : String) (data : List Value) :
    (publish_execute b topic data).1 = [CommandResponse.ok] ∧
    (publish_execute b topic data).1.length = 1 ∧
    CommandResponse.ok.status = 200 ∧
    (publish_execute Broadcaster.init topic data).1 = [CommandResponse.ok] :=
  ⟨rfl, rfl, rfl, rfl⟩

/-! ## Claim C9 -/

/-- Sequential subscribes: dispatch each topic's `SUBSCRIBE` in order,
collecting the response streams. -/
def run_subscribes (b : Broadcaster) :
    List String → List (List CommandResponse) × Broadcaster
  | [] => ([], b)
  | t :: ts =>
    let r := subscribe_execute b t
    let r2 := run_subscribes r.2 ts
    (r.1 :: r2.1, r2.2)

/-- The id an issued response stream carries: the integer value in its
first element. -/
def streamFirstId (s : List CommandResponse) : Option Nat :=
  match s.head? with
  | some r =>
    match r.values with
    | [some (.Integer (.ofNat id))] => some id
    | _ => none
  | none => none

/-- The ids carried by the first elements of the streams a sequence of
subscribes issues, in order. -/
def firstIds (topics : List String) : List Nat :=
  (run_subscribes Broadcaster.init topics).1.filterMap streamFirstId

/-- Each subscribe's stream starts with the response carrying the next
counter value, and the counter advances by one per subscribe. -/
theorem run_subscribes_streams (ts : List String) (b : Broadcaster) :
    (run_subscribes b ts).1 =
      (List.range' b.nextId ts.length).map (fun id => [subscribedResponse id]) ∧
    (run_subscribes b ts).2.nextId = b.nextId + ts.length := by
  induction ts generalizing b with
  | nil => simp [run_subscribes]
  | cons t ts ih =>
    have hse : subscribe_execute b t =
        ([subscribedResponse b.nextId],
          ⟨b.nextId + 1, (b.nextId, t) :: b.subs,
            (b.nextId, [subscribedResponse b.nextId]) :: b.queues⟩) := by
      simp [subscribe_execute, Broadcaster.subscribe, assocGet]
    obtain ⟨ih1, ih2⟩ := ih ⟨b.nextId + 1, (b.nextId, t) :: b.subs,
      (b.nextId, [subscribedResponse b.nextId]) :: b.queues⟩
    constructor
    · rw [show (run_subscribes b (t :: ts)).1 =
        (subscribe_execute b t).1 ::
          (run_subscribes (subscribe_execute b t).2 ts).1 from rfl]
      rw [hse]
      simp only [List.length_cons, List.range'_succ, List.map_cons]
      rw [ih1]
    · rw [show (run_subscribes b (t :: ts)).2 =
        (run_subscribes (subscribe_execute b t).2 ts).2 from rfl]
      rw [hse]
      rw [ih2]
      show b.nextId + 1 + ts.length = b.nextId + (t :: ts).length
      simp only [List.length_cons]
      omega

/-- C9: across any sequence of subscribes from a fresh broker, the first
element of each response stream carries the subscription id as an integer
value, and the issued ids are exactly `1, 2, …, n` — pairwise distinct,
strictly increasing, starting at 1, never reused (the counter only
advances). -/
theorem subscription_ids_monotone (topics : List String) :
    firstIds topics = List.range' 1 topics.length ∧
    (run_subscribes Broadcaster.init topics).1 =
      (List.range' 1 topics.length).map (fun id => [subscribedResponse id]) ∧
    List.Pairwise (· < ·) (firstIds topics) ∧
    (firstIds topics).Nodup ∧
    (0 < topics.length → (firstIds topics).head? = some 1) ∧
    (run_subscribes Broadcaster.init topics).2.nextId = topics.length + 1 := by
  obtain ⟨h1, h2⟩ := run_subscribes_streams topics Broadcaster.init
  have hinit : Broadcaster.init.nextId = 1 := rfl
  rw [hinit] at h1 h2
  have hids : firstIds topics = List.range' 1 topics.length := by
    rw [firstIds, h1, List.filterMap_map]
    rw [show streamFirstId ∘ (fun id => [subscribedResponse id]) = some from
      funext fun id => rfl]
    rw [List.filterMap_some]
  refine ⟨hids, h1, ?_, ?_, ?_, by omega⟩
  · rw [hids]
    exact List.pairwise_lt_range' 1 topics.length
  · rw [hids]
    exact List.nodup_range' 1 topics.length
  · intro hlen
    rw [hids, List.head?_range']
    rw [if_neg (by omega)]

/-- Witness for C9: three subscribes issue the streams for ids 1, 2, 3. -/
theorem subscription_ids_monotone_witness :
    firstIds ["lobby", "lobby", "arena"] = [1, 2, 3] ∧
    (0 < (["lobby", "lobby", "arena"] : List String).length ∧
      (firstIds ["lobby", "lobby", "arena"]).head? = some 1) := by
  have h := subscription_ids_monotone ["lobby", "lobby", "arena"]
  refine ⟨by rw [h.1]; rfl, by decide, h.2.2.2.2.1 (by decide)⟩

end MiniKV
